import Mathlib

/-!
Shallow embedding of the scan-orchestration and recursive-discovery core of
the apex-security-auditor repository (src/src-tauri/src), together with
theorems settling the frozen claims about it.

Conventions of the embedding:
* SQLite DATETIME values are modelled as natural numbers (seconds); every
  operation that writes CURRENT_TIMESTAMP takes an explicit now parameter.
* The assets table is a list of rows in insertion order; INTEGER PRIMARY KEY
  autoincrement is modelled by a next_id counter in the database state.
* Rust i64 and i32 values are modelled as Int (no arithmetic in the claims
  comes near the overflow boundary).
* Fallible database calls return an Except String value paired with the
  post-call state, so that an early Err return visibly leaves the state
  unchanged.
-/

/-- Severity of a finding, from data.rs (enum Severity). -/
inductive Severity where
  | Critical
  | High
  | Medium
  | Low
  | Info
deriving DecidableEq, Repr

/-- Finding badge, from data.rs (struct Badge).  The start and end fields of
the source are named startPos and endPos because end is a Lean keyword. -/
structure Badge where
  emoji : String
  short : String
  severity : Severity
  description : String
  owasp_category : Option String := none
  evidence : Option String := none
  startPos : Option Nat := none
  endPos : Option Nat := none
  is_fp : Bool := false
  fp_reason : Option String := none
deriving DecidableEq, Repr

/-- One asset row, from db/mod.rs (struct Asset and the assets table). -/
structure Asset where
  id : Int
  url : String
  method : String
  status : String
  status_code : Int
  risk_score : Int
  findings : List Badge
  folder_id : Int
  response_headers : String
  response_body : String
  request_headers : String
  request_body : String
  created_at : Nat
  updated_at : Nat
  notes : String
  triage_status : String
  is_documented : Bool
  source : String
  recursive : Bool
  is_workbench : Bool
  depth : Int
deriving DecidableEq, Repr

/-- One scan_history row, from db/mod.rs (struct ScanHistoryEntry). -/
structure ScanHistoryEntry where
  id : Int
  asset_id : Int
  timestamp : Nat
  status_code : Int
  risk_score : Int
  findings : List Badge
  response_headers : String
  response_body : String
deriving DecidableEq, Repr

/-- Database state: the assets and scan_history tables plus the autoincrement
counters for their integer primary keys. -/
structure DbState where
  assets : List Asset
  history : List ScanHistoryEntry
  next_id : Int
  next_hist_id : Int
deriving DecidableEq, Repr

/-- Test whether the first character list starts the second, modelling how
Rust str containment walks the haystack. -/
def charsStart : List Char → List Char → Bool
  | [], _ => true
  | _ :: _, [] => false
  | c :: cs, x :: xs => c == x && charsStart cs xs

/-- Substring containment on character lists: does the haystack contain the
needle?  Models Rust str::contains. -/
def charsContain : List Char → List Char → Bool
  | [], needle => needle.isEmpty
  | c :: t, needle => charsStart needle (c :: t) || charsContain t needle

/-- String containment, modelling host.contains(d) in monitor.rs. -/
def strContains (hay needle : String) : Bool :=
  charsContain hay.data needle.data

/-- String suffix test, modelling host.ends_with in monitor.rs. -/
def strEndsWith (hay suffixStr : String) : Bool :=
  charsStart suffixStr.data.reverse hay.data.reverse

/-- ASCII-style lowercasing, modelling host.to_lowercase() in monitor.rs
(the hostnames involved are ASCII). -/
def lowerStr (s : String) : String :=
  String.mk (s.data.map Char.toLower)

/-- Lookup of an asset row by id, modelling SELECT ... WHERE id = ?. -/
def findAsset (assets : List Asset) (id : Int) : Option Asset :=
  assets.find? (fun a => a.id == id)

/-- In-place update of the rows with the given id, modelling
UPDATE assets SET ... WHERE id = ?. -/
def updateRow (assets : List Asset) (id : Int) (f : Asset → Asset) : List Asset :=
  assets.map (fun a => if a.id == id then f a else a)

/-- Fresh asset row as inserted by add_asset in db/assets.rs: the INSERT names
url, method, status (literal Pending), source, recursive, is_workbench and
depth; every other column takes the defaults declared by init_tables in
db/mod.rs. -/
def newAssetRow (id : Int) (url methodVal source : String) (recursive is_workbench : Bool)
    (depth : Int) (now : Nat) : Asset :=
  { id := id
    url := url
    method := methodVal
    status := "Pending"
    status_code := 0
    risk_score := 0
    findings := []
    folder_id := 1
    response_headers := ""
    response_body := ""
    request_headers := ""
    request_body := ""
    created_at := now
    updated_at := now
    notes := ""
    triage_status := "Unreviewed"
    is_documented := true
    source := source
    recursive := recursive
    is_workbench := is_workbench
    depth := depth }

/-- add_asset from db/assets.rs against the schema of init_tables in
db/mod.rs.  The INSERT OR IGNORE is keyed on the url column alone, because the
assets table declares url TEXT NOT NULL UNIQUE and no composite unique index
on (url, method) exists.  The follow-up SELECT filters on url AND method and
turns into QueryReturnedNoRows when it finds nothing, which add_asset
propagates as an error without mutating anything. -/
def addAsset (st : DbState) (url source : String) (method : Option String)
    (recursive is_workbench : Bool) (depth : Int) (now : Nat) :
    Except String Int × DbState :=
  let methodVal := method.getD "GET"
  let stIns :=
    if st.assets.any (fun r => r.url == url) then st
    else { st with
            assets := st.assets ++ [newAssetRow st.next_id url methodVal source recursive is_workbench depth now]
            next_id := st.next_id + 1 }
  match stIns.assets.find? (fun r => r.url == url && r.method == methodVal) with
  | none => (Except.error "QueryReturnedNoRows", stIns)
  | some row =>
    let st1 :=
      if recursive && !row.recursive then
        { stIns with assets := updateRow stIns.assets row.id (fun a => { a with recursive := true }) }
      else stIns
    let st2 :=
      if !(source == "Recursive") && !(source == row.source) then
        { st1 with assets := updateRow st1.assets row.id (fun a => { a with source := source }) }
      else st1
    let st3 :=
      if is_workbench then
        { st2 with assets := updateRow st2.assets row.id (fun a => { a with is_workbench := true }) }
      else st2
    (Except.ok row.id, st3)

/-- get_pending_scans from db/assets.rs: SELECT ... WHERE status = Pending
ORDER BY created_at ASC LIMIT ?.  The input list models the table contents in
created_at order, so ORDER BY plus LIMIT becomes take. -/
def getPendingScans (assets : List Asset) (limit : Nat) : List Asset :=
  (assets.filter (fun a => a.status == "Pending")).take limit

/-- get_stale_assets from db/assets.rs: SELECT ... WHERE
datetime(updated_at, +N minutes) < datetime(now) OR status = Pending
ORDER BY updated_at ASC LIMIT ?.  The input list models the table contents in
updated_at order; minutes are converted to the second-based clock. -/
def getStaleAssets (assets : List Asset) (limit : Nat) (minutes_stale : Nat)
    (now : Nat) : List Asset :=
  (assets.filter (fun a =>
    decide (a.updated_at + minutes_stale * 60 < now) || a.status == "Pending")).take limit

/-- update_scan_result from db/assets.rs: snapshot the prior scan fields into
scan_history when the prior state was non-trivial (status_code not 0 or a
non-empty body), then overwrite the live scan fields and updated_at. -/
def updateScanResult (st : DbState) (id : Int) (status : String) (status_code : Int)
    (risk_score : Int) (findings : List Badge) (resp_headers resp_body req_headers req_body : String)
    (now : Nat) : DbState :=
  let archived :=
    match findAsset st.assets id with
    | some old =>
      if !(old.status_code == 0) || !(old.response_body == "") then
        some { id := st.next_hist_id
               asset_id := id
               timestamp := now
               status_code := old.status_code
               risk_score := old.risk_score
               findings := old.findings
               response_headers := old.response_headers
               response_body := old.response_body : ScanHistoryEntry }
      else none
    | none => none
  let st1 :=
    match archived with
    | some entry => { st with history := st.history ++ [entry], next_hist_id := st.next_hist_id + 1 }
    | none => st
  { st1 with assets := updateRow st1.assets id (fun a =>
      { a with
        status := status
        status_code := status_code
        risk_score := risk_score
        findings := findings
        response_headers := resp_headers
        response_body := resp_body
        request_headers := req_headers
        request_body := req_body
        updated_at := now }) }

/-- Per-severity risk weight shared by scan.rs (scan_url) and db/assets.rs
(recalculate_asset_risk_score). -/
def weight : Severity → Int
  | Severity.Critical => 100
  | Severity.High => 50
  | Severity.Medium => 25
  | Severity.Low => 10
  | Severity.Info => 0

/-- Risk aggregation of recalculate_asset_risk_score in db/assets.rs: sum the
weights of the findings whose is_fp flag is false. -/
def computeRiskNonFp (findings : List Badge) : Int :=
  findings.foldl (fun acc f => if f.is_fp then acc else acc + weight f.severity) 0

/-- Risk aggregation of scan_url in scan.rs: sum the weights of every badge
returned by the detector suite (no is_fp filter appears there). -/
def scanRiskAll (badges : List Badge) : Int :=
  badges.foldl (fun acc b => acc + weight b.severity) 0

/-- Status ladder shared verbatim by scan_url in scan.rs and
recalculate_asset_risk_score in db/assets.rs. -/
def statusForScore (score : Int) : String :=
  if score >= 100 then "Critical"
  else if score >= 50 then "Warning"
  else if score > 0 then "Suspicious"
  else "Safe"

/-- Result record of scan_url, from core ScanResult used in scan.rs. -/
structure ScanResult where
  status : String
  status_code : Int
  risk_score : Int
  findings : List Badge
  response_headers : String
  response_body : String
  request_headers : String
  request_body : String
  discovered_urls : List String
deriving DecidableEq, Repr

/-- Request headers string built at the top of scan_url in scan.rs. -/
def mkRequestHeaders (method url : String) : String :=
  "Method: " ++ method ++ "\nURL: " ++ url ++ "\nUser-Agent: ApexSecurityAuditor/1.0"

/-- Successful-response branch of scan_url in scan.rs.  The badge list is the
output of the detector suite (analyze), which the embedding takes as a
parameter; risk and status are derived from it exactly as the source does. -/
def scanUrlSuccess (url method : String) (status_code : Int)
    (resp_headers resp_body : String) (badges : List Badge)
    (discovered : List String) : ScanResult :=
  { status := statusForScore (scanRiskAll badges)
    status_code := status_code
    risk_score := scanRiskAll badges
    findings := badges
    response_headers := resp_headers
    response_body := resp_body
    request_headers := mkRequestHeaders method url
    request_body := ""
    discovered_urls := discovered }

/-- Connection-failure branch of scan_url in scan.rs. -/
def scanUrlFailure (url method errMsg : String) : ScanResult :=
  { status := "Connection Failed"
    status_code := 0
    risk_score := 0
    findings := []
    response_headers := "Error: " ++ errMsg
    response_body := ""
    request_headers := mkRequestHeaders method url
    request_body := ""
    discovered_urls := [] }

/-- Match predicate of the finding loop in update_finding_fp from
db/assets.rs: the badge matches on short name and evidence. -/
def findingMatches (f : Badge) (short_name : String) (evidence : Option String) : Bool :=
  f.short == short_name && f.evidence == evidence

/-- Whether some persisted finding matches, the updated flag of
update_finding_fp in db/assets.rs. -/
def hasMatch (findings : List Badge) (short_name : String) (evidence : Option String) : Bool :=
  findings.any (fun f => findingMatches f short_name evidence)

/-- Finding rewrite of update_finding_fp in db/assets.rs: every matching
badge gets the new is_fp flag and fp_reason. -/
def applyFp (findings : List Badge) (short_name : String) (evidence : Option String)
    (is_fp : Bool) (reason : Option String) : List Badge :=
  findings.map (fun f =>
    if findingMatches f short_name evidence then
      { f with is_fp := is_fp, fp_reason := reason }
    else f)

/-- update_finding_fp from db/assets.rs: load the findings of the asset, flip
every (short, evidence) match, fail with Finding not found when nothing
matched (before any write), otherwise persist the findings and updated_at. -/
def updateFindingFp (st : DbState) (asset_id : Int) (short_name : String)
    (evidence : Option String) (is_fp : Bool) (reason : Option String)
    (now : Nat) : Except String Unit × DbState :=
  match findAsset st.assets asset_id with
  | none => (Except.error "QueryReturnedNoRows", st)
  | some a =>
    if hasMatch a.findings short_name evidence then
      (Except.ok (),
        { st with assets := updateRow st.assets asset_id (fun r =>
            { r with
              findings := applyFp a.findings short_name evidence is_fp reason
              updated_at := now }) })
    else (Except.error "Finding not found", st)

/-- recalculate_asset_risk_score from db/assets.rs: re-derive risk_score from
the non-false-positive findings, map it through the status ladder, persist
both plus updated_at. -/
def recalculateAssetRiskScore (st : DbState) (asset_id : Int) (now : Nat) :
    Except String Unit × DbState :=
  match findAsset st.assets asset_id with
  | none => (Except.error "QueryReturnedNoRows", st)
  | some a =>
    let score := computeRiskNonFp a.findings
    (Except.ok (),
      { st with assets := updateRow st.assets asset_id (fun r =>
          { r with
            risk_score := score
            status := statusForScore score
            updated_at := now }) })

/-- toggle_finding_fp command from commands/assets.rs: update_finding_fp
followed, only on success, by recalculate_asset_risk_score. -/
def toggleFindingFp (st : DbState) (asset_id : Int) (short_name : String)
    (evidence : Option String) (is_fp : Bool) (reason : Option String)
    (now : Nat) : Except String Unit × DbState :=
  match updateFindingFp st asset_id short_name evidence is_fp reason now with
  | (Except.error e, st1) => (Except.error e, st1)
  | (Except.ok _, st1) => recalculateAssetRiskScore st1 asset_id now

/-- Recursion precondition computed in the per-asset task of
start_background_monitor in services/monitor.rs: the recursive flag is set and
the source is not Workbench. -/
def shouldRecurse (recursive : Bool) (source : String) : Bool :=
  recursive && !(source == "Workbench")

/-- Whether the per-asset task of start_background_monitor in
services/monitor.rs reaches the discovery loop: should_recurse holds and the
early return guard (global toggle disabled and source equal to Recursive) did
not fire. -/
def discoveryProceeds (recursive_enabled recursive : Bool) (source : String) : Bool :=
  shouldRecurse recursive source && !(!recursive_enabled && source == "Recursive")

/-- Whether the per-asset task prints the log line Recursing on asset ... due
to Recursive source, from services/monitor.rs: same guard as the early return
that immediately follows it. -/
def printsRecursingLog (recursive_enabled recursive : Bool) (source : String) : Bool :=
  shouldRecurse recursive source && (!recursive_enabled && source == "Recursive")

/-- Recursion condition exactly as the specification states it: recursive
flag set, source not Workbench, and the global toggle enabled or the source
already Recursive (the grandfathered case). -/
def claimDiscoveryCondition (recursive_enabled recursive : Bool) (source : String) : Bool :=
  recursive && !(source == "Workbench") && (recursive_enabled || source == "Recursive")

/-- Fixed deny-list of third-party platforms from the discovery loop of
services/monitor.rs. -/
def blacklist : List String :=
  ["twitter.com", "x.com", "facebook.com", "instagram.com", "linkedin.com",
   "youtube.com", "wikipedia.org", "github.com", "apple.com", "google.com",
   "microsoft.com", "cdn.prod.website-files.com"]

/-- Deny-list test of services/monitor.rs: the lowercased host merely has to
contain a deny-list entry as a substring. -/
def isBlacklistedHost (host : String) : Bool :=
  blacklist.any (fun d => strContains (lowerStr host) d)

/-- Deny-list test as the claim words it: the host equals a deny-list entry
or is a dot-suffixed subdomain of one. -/
def claimDenyMatchOrSubdomain (host : String) : Bool :=
  blacklist.any (fun d => host == d || strEndsWith host ("." ++ d))

/-- Scope test of services/monitor.rs: the host equals an authorized domain
or is a dot-suffixed subdomain of one. -/
def isAuthorizedHost (authorized_domains : List String) (host : String) : Bool :=
  authorized_domains.any (fun d => host == d || strEndsWith host ("." ++ d))

/-- Admission test of the discovery loop in services/monitor.rs: not
deny-listed and inside the authorized scope. -/
def admitHost (authorized_domains : List String) (host : String) : Bool :=
  !isBlacklistedHost host && isAuthorizedHost authorized_domains host

/-- Insertion performed for one admitted discovered URL in
services/monitor.rs: source Recursive, no method argument, recursive flag by
depth test against 3, depth incremented, not workbench. -/
def discoveryAdd (st : DbState) (durl : String) (parent_depth : Int) (now : Nat) :
    Except String Int × DbState :=
  if parent_depth < 3 then
    addAsset st durl "Recursive" none true false (parent_depth + 1) now
  else
    addAsset st durl "Recursive" none false false (parent_depth + 1) now

/-- Handling of one discovered URL in the loop of services/monitor.rs.  URL
parsing by the url crate is abstracted by the hostOf parameter giving the host
of a parseable URL; unparseable URLs and URLs without a host are skipped. -/
def processDiscoveredUrl (st : DbState) (parent_depth : Int)
    (authorized_domains : List String) (hostOf : String → Option String)
    (durl : String) (now : Nat) : DbState :=
  match hostOf durl with
  | none => st
  | some host =>
    if admitHost authorized_domains host then (discoveryAdd st durl parent_depth now).2
    else st

/-- Host fallback of get_authorized_domains in db/assets.rs: a stored URL the
url crate cannot parse contributes its prefix before the first slash when it
contains a slash at all. -/
def hostFromDbUrl (hostOf : String → Option String) (u : String) : Option String :=
  match hostOf u with
  | some h => some h
  | none =>
    if u.data.any (fun c => c == '/') then some (String.mk (u.data.takeWhile (fun c => !(c == '/'))))
    else none

/-- get_authorized_domains from db/assets.rs: the distinct hostnames among
the stored URLs of assets whose source is not Recursive, with url-crate
parsing abstracted by hostOf. -/
def getAuthorizedDomains (hostOf : String → Option String) (assets : List Asset) :
    List String :=
  ((((assets.filter (fun a => !(a.source == "Recursive"))).map (fun a => a.url)).dedup).filterMap
    (hostFromDbUrl hostOf)).dedup

/-- One wait() call of the rate limiter in core/rate_limiter.rs, over an
abstract monotone clock in the same units as min_interval.  The call acquires
the mutex and reads the clock at time a while the stored last-call time is
last.  When the elapsed time a - last is short of min_interval the task
sleeps at least the remainder and stores the post-sleep clock; otherwise it
stores a.  In both branches the stored value equals the return time, so a
trace couples them through last (i+1) = ret i. -/
def WaitStep (min_interval last a ret : Nat) : Prop :=
  (a - last < min_interval ∧ a + (min_interval - (a - last)) ≤ ret) ∨
  (¬ a - last < min_interval ∧ ret = a)

/-- Helper: find? skips a block of elements that all fail the predicate. -/
lemma find?_append_of_all_neg {α : Type} (p : α → Bool) (l₁ l₂ : List α)
    (h : ∀ a ∈ l₁, p a = false) : (l₁ ++ l₂).find? p = l₂.find? p := by
  induction l₁ with
  | nil => simp
  | cons x t ih =>
    have hx := h x (by simp)
    rw [List.cons_append, List.find?_cons, hx]
    exact ih (fun a ha => h a (by simp [ha]))

/-- Helper: looking an id up after an id-preserving row update returns the
updated row. -/
lemma findAsset_updateRow (l : List Asset) (id : Int) (f : Asset → Asset)
    (hf : ∀ r, (f r).id = r.id) :
    findAsset (updateRow l id f) id = (findAsset l id).map f := by
  induction l with
  | nil => rfl
  | cons x t ih =>
    by_cases hx : (x.id == id) = true
    · simp only [findAsset, updateRow, List.map_cons, List.find?_cons, hx, if_pos, hf x]
      rfl
    · have hx' : (x.id == id) = false := by
        cases hb : (x.id == id) with
        | true => exact absurd hb hx
        | false => rfl
      simp only [findAsset, updateRow, List.map_cons, List.find?_cons, hx', if_neg,
        Bool.false_eq_true, ite_false]
      exact ih

/-- Empty database, the state of a fresh in-memory connection after
init_tables. -/
def dbEmpty : DbState := { assets := [], history := [], next_id := 1, next_hist_id := 1 }

/-- C1: the per-asset task of the scheduler contradicts both the claim and
its own adjacent log line: with the global toggle disabled, an asset whose
recursive flag is set and whose source is Recursive prints the log line
announcing recursion due to its Recursive source and then returns without
discovering anything, while an asset of source User does run discovery even
though the toggle is disabled.  The claim (and the spec) state the opposite
polarity for both. -/
theorem c1_grandfather_guard_inverted :
    discoveryProceeds false true "Recursive" = false ∧
    printsRecursingLog false true "Recursive" = true ∧
    claimDiscoveryCondition false true "Recursive" = true ∧
    discoveryProceeds false true "User" = true ∧
    claimDiscoveryCondition false true "User" = false := by
  decide

/-- C3: because the assets table declares url alone as UNIQUE (init_tables in
db/mod.rs) and no composite (url, method) unique index exists, re-adding the
same (url, method) pair is idempotent, but adding the same url with a
different method is silently ignored by INSERT OR IGNORE and then fails with
QueryReturnedNoRows instead of creating a second row, contradicting the claim
and the test test_distinct_methods of db/assets.rs. -/
theorem c3_url_unique_blocks_distinct_methods :
    (addAsset dbEmpty "http://api.com" "Import" (some "GET") false false 0 0).1 = Except.ok 1 ∧
    (addAsset (addAsset dbEmpty "http://api.com" "Import" (some "GET") false false 0 0).2
      "http://api.com" "Import" (some "GET") false false 0 0).1 = Except.ok 1 ∧
    (addAsset (addAsset dbEmpty "http://api.com" "Import" (some "GET") false false 0 0).2
      "http://api.com" "Import" (some "GET") false false 0 0).2.assets.length = 1 ∧
    (addAsset (addAsset dbEmpty "http://api.com" "Import" (some "GET") false false 0 0).2
      "http://api.com" "Import" (some "POST") false false 0 0).1 =
        Except.error "QueryReturnedNoRows" ∧
    (addAsset (addAsset dbEmpty "http://api.com" "Import" (some "GET") false false 0 0).2
      "http://api.com" "Import" (some "POST") false false 0 0).2.assets.length = 1 := by
  exact ⟨rfl, rfl, rfl, rfl, rfl⟩

/-- Already-scanned asset whose last scan failed and whose updated_at lies
far behind the staleness window. -/
def staleFailedAsset : Asset :=
  { newAssetRow 1 "http://a.example.com" "GET" "User" true false 0 0 with
    status := "Connection Failed"
    response_headers := "Error: timeout" }

/-- C2 counterexample: the scheduler tick calls get_pending_scans, which
selects on status Pending alone, so an asset that finished as Connection
Failed is not fetched however stale it is, even though the staleness query
get_stale_assets (which no scheduler code calls) would return it. -/
theorem c2_stale_failed_asset_not_selected :
    getPendingScans [staleFailedAsset] 10 = [] ∧
    ¬ staleFailedAsset.status = "Pending" ∧
    staleFailedAsset.updated_at + 5 * 60 < 1000 ∧
    getStaleAssets [staleFailedAsset] 10 5 1000 = [staleFailedAsset] := by
  exact ⟨rfl, by decide, by decide, rfl⟩

/-- C2 amended: every asset fetched by the scheduler tick has status Pending,
at most limit assets are fetched, and a Pending asset is only left out when
the batch is already full. -/
theorem c2_fetch_selects_pending_only (assets : List Asset) (limit : Nat) :
    (getPendingScans assets limit).length ≤ limit ∧
    (∀ a ∈ getPendingScans assets limit, a.status = "Pending") ∧
    (∀ a ∈ assets, a.status = "Pending" → a ∉ getPendingScans assets limit →
      (getPendingScans assets limit).length = limit) := by
  refine ⟨List.length_take_le _ _, ?_, ?_⟩
  · intro a ha
    have h1 : a ∈ assets.filter (fun a => a.status == "Pending") := List.take_subset _ _ ha
    have h2 := (List.mem_filter.1 h1).2
    simpa using h2
  · intro a ha hp hnot
    have hmem : a ∈ assets.filter (fun a => a.status == "Pending") :=
      List.mem_filter.2 ⟨ha, by simp [hp]⟩
    by_contra hne
    rcases Nat.lt_or_ge (assets.filter (fun a => a.status == "Pending")).length limit with hlt | hge
    · apply hnot
      unfold getPendingScans
      rw [List.take_of_length_le (Nat.le_of_lt hlt)]
      exact hmem
    · apply hne
      unfold getPendingScans
      rw [List.length_take]
      omega

/-- Freshly added Pending asset used as a concrete witness input. -/
def pendingSeedAsset : Asset := newAssetRow 1 "http://seed.example.com" "GET" "User" false false 0 0

/-- Witness for the amended C2 theorem at a concrete one-asset table. -/
theorem c2_fetch_selects_pending_only_witness :
    pendingSeedAsset.status = "Pending" ∧ (getPendingScans [pendingSeedAsset] 10).length ≤ 10 := by
  have h := c2_fetch_selects_pending_only [pendingSeedAsset] 10
  exact ⟨h.2.1 pendingSeedAsset (by decide), h.1⟩

/-- Helper: inserting a URL not present in the table through the discovery
path of add_asset creates exactly one fresh row carrying the given flags and
the default method GET, and returns its id. -/
lemma addAsset_fresh_discovery (st : DbState) (durl : String) (recursive : Bool)
    (depth : Int) (now : Nat)
    (hfresh : ∀ r ∈ st.assets, (r.url == durl) = false) :
    addAsset st durl "Recursive" none recursive false depth now =
      (Except.ok st.next_id,
        { st with
          assets := st.assets ++ [newAssetRow st.next_id durl "GET" "Recursive" recursive false depth now]
          next_id := st.next_id + 1 }) := by
  have hany : (st.assets.any (fun r => r.url == durl)) = false := by
    rw [List.any_eq_false]
    intro r hr
    simp [hfresh r hr]
  unfold addAsset
  simp only [Option.getD_none, hany, Bool.false_eq_true, if_false, ite_false]
  rw [find?_append_of_all_neg _ _ _ (by
    intro r hr
    simp [hfresh r hr])]
  simp [newAssetRow]

/-- Helper: the discovery-loop insertion of services/monitor.rs on a URL not
yet in the table creates one row at depth parent + 1 whose recursive flag is
the parent-depth test against 3. -/
lemma discoveryAdd_fresh (st : DbState) (durl : String) (parent_depth : Int) (now : Nat)
    (hfresh : ∀ r ∈ st.assets, (r.url == durl) = false) :
    discoveryAdd st durl parent_depth now =
      (Except.ok st.next_id,
        { st with
          assets := st.assets ++
            [newAssetRow st.next_id durl "GET" "Recursive" (decide (parent_depth < 3)) false
              (parent_depth + 1) now]
          next_id := st.next_id + 1 }) := by
  unfold discoveryAdd
  by_cases hd : parent_depth < 3
  · rw [if_pos hd, addAsset_fresh_discovery st durl true _ now hfresh]
    simp [hd]
  · rw [if_neg hd, addAsset_fresh_discovery st durl false _ now hfresh]
    simp [hd]

/-- C4 counterexample: discovery from a parent at depth 2 persists the child
at depth 3 with recursive still true, and discovery from a parent at depth 3
persists a child at depth 4, so a depth-3 asset does not carry recursive =
false and assets beyond depth 3 do get created. -/
theorem c4_depth3_child_recursive_true :
    (∃ a, findAsset (discoveryAdd dbEmpty "http://a.example.com/p" 2 0).2.assets 1 = some a ∧
      a.depth = 3 ∧ a.recursive = true) ∧
    (∃ a, findAsset (discoveryAdd dbEmpty "http://a.example.com/q" 3 0).2.assets 1 = some a ∧
      a.depth = 4 ∧ a.recursive = false ∧ a.depth > 3) := by
  exact ⟨⟨_, rfl, rfl, rfl⟩, ⟨_, rfl, rfl, rfl, by decide⟩⟩

/-- C4 amended: an admitted discovery of a URL not yet in the table is
inserted as a Pending asset of source Recursive at depth parent + 1, and its
recursive flag is true exactly when the parent depth is strictly below 3, so
children of parents at depth up to 2 keep recursing (including children whose
own depth is 3) and children of depth-3 parents are persisted at depth 4 with
recursive = false; one discovery step never creates depth beyond parent + 1. -/
theorem c4_discovery_inserts_child (st : DbState) (durl : String) (parent_depth : Int)
    (now : Nat) (hfresh : ∀ r ∈ st.assets, (r.url == durl) = false) :
    ∃ a : Asset,
      (discoveryAdd st durl parent_depth now).1 = Except.ok a.id ∧
      a ∈ (discoveryAdd st durl parent_depth now).2.assets ∧
      a.url = durl ∧ a.status = "Pending" ∧ a.source = "Recursive" ∧
      a.depth = parent_depth + 1 ∧
      (a.recursive = true ↔ parent_depth < 3) := by
  refine ⟨newAssetRow st.next_id durl "GET" "Recursive" (decide (parent_depth < 3)) false
    (parent_depth + 1) now, ?_, ?_, rfl, rfl, rfl, rfl, ?_⟩
  · rw [discoveryAdd_fresh st durl parent_depth now hfresh]
    rfl
  · rw [discoveryAdd_fresh st durl parent_depth now hfresh]
    simp
  · exact decide_eq_true_iff

/-- Witness for the amended C4 theorem: a fresh discovery from a depth-0
parent into the empty table. -/
theorem c4_discovery_inserts_child_witness :
    ∃ a : Asset,
      (discoveryAdd dbEmpty "http://a.example.com/x" 0 0).1 = Except.ok a.id ∧
      a ∈ (discoveryAdd dbEmpty "http://a.example.com/x" 0 0).2.assets ∧
      a.url = "http://a.example.com/x" ∧ a.status = "Pending" ∧ a.source = "Recursive" ∧
      a.depth = 0 + 1 ∧
      (a.recursive = true ↔ (0 : Int) < 3) := by
  exact c4_discovery_inserts_child dbEmpty "http://a.example.com/x" 0 0 (by intro r hr; simp [dbEmpty] at hr)

/-- C10: the discovery loop passes no method to add_asset (the monitor call
site hands None over, so discoveryAdd has no method parameter at all and in
particular none from the parent), and add_asset defaults a missing method to
GET, so every asset created by recursive discovery carries method GET. -/
theorem c10_discovery_method_is_get (st : DbState) (durl : String) (parent_depth : Int)
    (now : Nat) (hfresh : ∀ r ∈ st.assets, (r.url == durl) = false) :
    ∃ a : Asset,
      (discoveryAdd st durl parent_depth now).1 = Except.ok a.id ∧
      a ∈ (discoveryAdd st durl parent_depth now).2.assets ∧
      a.url = durl ∧ a.method = "GET" ∧
      (∀ method : Option String,
        addAsset st durl "Recursive" method (decide (parent_depth < 3)) false (parent_depth + 1) now =
          addAsset st durl "Recursive" (some (method.getD "GET")) (decide (parent_depth < 3)) false
            (parent_depth + 1) now) := by
  refine ⟨newAssetRow st.next_id durl "GET" "Recursive" (decide (parent_depth < 3)) false
    (parent_depth + 1) now, ?_, ?_, rfl, rfl, ?_⟩
  · rw [discoveryAdd_fresh st durl parent_depth now hfresh]
    rfl
  · rw [discoveryAdd_fresh st durl parent_depth now hfresh]
    simp
  · intro method
    cases method <;> rfl

/-- Witness for the C10 theorem at a concrete fresh discovery. -/
theorem c10_discovery_method_is_get_witness :
    ∃ a : Asset,
      (discoveryAdd dbEmpty "http://a.example.com/y" 1 0).1 = Except.ok a.id ∧
      a ∈ (discoveryAdd dbEmpty "http://a.example.com/y" 1 0).2.assets ∧
      a.url = "http://a.example.com/y" ∧ a.method = "GET" ∧
      (∀ method : Option String,
        addAsset dbEmpty "http://a.example.com/y" "Recursive" method (decide ((1 : Int) < 3)) false
          (1 + 1) 0 =
          addAsset dbEmpty "http://a.example.com/y" "Recursive" (some (method.getD "GET"))
            (decide ((1 : Int) < 3)) false (1 + 1) 0) := by
  exact c10_discovery_method_is_get dbEmpty "http://a.example.com/y" 1 0 (by intro r hr; simp [dbEmpty] at hr)

/-- C8 counterexample: the deny-list check of the discovery loop is a
substring containment on the lowercased host, so the host mygithub.com is
rejected although it neither equals github.com (or any other deny-list
entry) nor is a dot-suffixed subdomain of one; with mygithub.com itself an
authorized domain, the claim admits the host while the code refuses to
insert it on deny-list grounds. -/
theorem c8_contains_rejects_beyond_subdomains :
    isBlacklistedHost "mygithub.com" = true ∧
    claimDenyMatchOrSubdomain "mygithub.com" = false ∧
    isAuthorizedHost ["mygithub.com"] "mygithub.com" = true ∧
    admitHost ["mygithub.com"] "mygithub.com" = false := by
  exact ⟨by decide, by decide, by decide, by decide⟩

/-- C8 amended: a discovered host is admitted exactly when no deny-list
entry occurs as a substring of its lowercased form (a strictly wider
rejection than equality-or-subdomain) and it equals, or is a dot-suffixed
subdomain of, an authorized domain; a host that fails this admission test is
never inserted by the discovery loop; and the authorized domains are exactly
the hostnames derived from assets whose source is not Recursive. -/
theorem c8_scope_admission (domains : List String) (host : String) :
    (admitHost domains host = true ↔
      ((∀ d ∈ blacklist, strContains (lowerStr host) d = false) ∧
        ∃ d ∈ domains, host = d ∨ strEndsWith host ("." ++ d) = true)) ∧
    (∀ (st : DbState) (parent_depth : Int) (hostOf : String → Option String)
        (durl : String) (now : Nat),
      hostOf durl = some host →
      admitHost domains host = false →
      processDiscoveredUrl st parent_depth domains hostOf durl now = st) ∧
    (∀ (hostOf : String → Option String) (assets : List Asset) (h : String),
      h ∈ getAuthorizedDomains hostOf assets ↔
        ∃ a ∈ assets, ¬ a.source = "Recursive" ∧ hostFromDbUrl hostOf a.url = some h) := by
  refine ⟨?_, ?_, ?_⟩
  · simp [admitHost, isBlacklistedHost, isAuthorizedHost, List.any_eq_true, List.any_eq_false,
      Bool.and_eq_true, Bool.or_eq_true, beq_iff_eq, Bool.not_eq_true']
  · intro st parent_depth hostOf durl now hhost hrej
    unfold processDiscoveredUrl
    rw [hhost]
    simp [hrej]
  · intro hostOf assets h
    simp [getAuthorizedDomains, List.mem_dedup, List.mem_filterMap, List.mem_map, List.mem_filter]
    exact exists_congr fun a => by tauto

/-- Witness for the amended C8 theorem: with example.com authorized, the host
api.example.com is admitted, and a deny-listed discovery (github.com) leaves
the database untouched. -/
theorem c8_scope_admission_witness :
    admitHost ["example.com"] "api.example.com" = true ∧
    processDiscoveredUrl dbEmpty 0 ["example.com"] (fun _ => some "github.com")
      "http://github.com/repo" 0 = dbEmpty := by
  constructor
  · exact (c8_scope_admission ["example.com"] "api.example.com").1.2
      ⟨by decide, "example.com", by simp, Or.inr (by decide)⟩
  · exact (c8_scope_admission ["example.com"] "github.com").2.1 dbEmpty 0 _ _ 0 rfl (by decide)

/-- Helper: with no false positives among the badges the two fold loops of
scan_url and recalculate_asset_risk_score agree from any accumulator. -/
lemma foldl_weights_eq (l : List Badge) (acc : Int) (h : ∀ b ∈ l, b.is_fp = false) :
    l.foldl (fun acc b => acc + weight b.severity) acc =
      l.foldl (fun acc f => if f.is_fp then acc else acc + weight f.severity) acc := by
  induction l generalizing acc with
  | nil => rfl
  | cons b t ih =>
    simp only [List.foldl_cons, h b (by simp)]
    rw [ih _ (fun x hx => h x (by simp [hx]))]
    simp [h b (by simp)]

/-- Helper: the scan-side risk sum equals the recalculation-side risk sum on
badge lists without false positives. -/
lemma scanRiskAll_eq_nonfp (badges : List Badge) (h : ∀ b ∈ badges, b.is_fp = false) :
    scanRiskAll badges = computeRiskNonFp badges :=
  foldl_weights_eq badges 0 h

/-- Helper: recalculate_asset_risk_score on a present asset succeeds and
rewrites exactly the risk_score, status and updated_at columns of that row. -/
lemma recalc_found (st : DbState) (asset_id : Int) (now : Nat) (a : Asset)
    (ha : findAsset st.assets asset_id = some a) :
    recalculateAssetRiskScore st asset_id now =
      (Except.ok (), { st with assets := updateRow st.assets asset_id (fun r =>
          { r with risk_score := computeRiskNonFp a.findings
                   status := statusForScore (computeRiskNonFp a.findings)
                   updated_at := now }) }) := by
  unfold recalculateAssetRiskScore
  rw [ha]

/-- Helper: whatever the history branch does, the assets component of
update_scan_result is the plain overwrite of the scan fields. -/
lemma updateScanResult_assets (st : DbState) (id : Int) (status : String) (code risk : Int)
    (fnd : List Badge) (rh rb qh qb : String) (now : Nat) :
    (updateScanResult st id status code risk fnd rh rb qh qb now).assets =
      updateRow st.assets id (fun a =>
        { a with status := status, status_code := code, risk_score := risk, findings := fnd,
                 response_headers := rh, response_body := rb, request_headers := qh,
                 request_body := qb, updated_at := now }) := by
  unfold updateScanResult
  cases findAsset st.assets id with
  | none => rfl
  | some old =>
    by_cases hb : (!(old.status_code == 0) || !(old.response_body == "")) = true
    · simp only [hb, if_pos]
    · simp only [Bool.not_eq_true] at hb
      simp only [hb]
      rfl

/-- Pending asset used by the concrete C5 scenarios. -/
def pendingAssetC5 : Asset := newAssetRow 1 "http://a.example.com" "GET" "User" false false 0 0

/-- One-asset database used by the concrete C5 scenarios. -/
def dbC5 : DbState := { assets := [pendingAssetC5], history := [], next_id := 2, next_hist_id := 1 }

/-- C5 counterexample: a scan that fails to connect persists risk 0 together
with the status Connection Failed, not the Safe that the threshold ladder
assigns to score 0, so the claimed status equation does not hold after every
scan. -/
theorem c5_connection_failed_overrides_ladder :
    (scanUrlFailure "http://a.example.com" "GET" "timeout").risk_score = 0 ∧
    (scanUrlFailure "http://a.example.com" "GET" "timeout").status = "Connection Failed" ∧
    ∃ a', findAsset (updateScanResult dbC5 1 "Connection Failed" 0 0 [] "Error: timeout" "" "" ""
        100).assets 1 = some a' ∧
      a'.status = "Connection Failed" ∧ a'.risk_score = 0 ∧
      computeRiskNonFp a'.findings = 0 ∧
      statusForScore (computeRiskNonFp a'.findings) = "Safe" ∧
      ¬ a'.status = statusForScore (computeRiskNonFp a'.findings) := by
  exact ⟨rfl, rfl, _, rfl, rfl, rfl, rfl, rfl, by decide⟩

/-- C5 amended: the false-positive recalculation persists risk_score equal to
the weight sum over non-false-positive findings and the matching threshold
status; a successful scan derives its risk and status from the detector
badges by the same weights and ladder (the two sums agree because detector
badges carry is_fp = false), and update_scan_result persists the scan result
values verbatim; only a connection failure bypasses the ladder with score 0
and status Connection Failed. -/
theorem c5_risk_weights_and_thresholds :
    (∀ (st : DbState) (asset_id : Int) (a : Asset) (now : Nat),
      findAsset st.assets asset_id = some a →
      (recalculateAssetRiskScore st asset_id now).1 = Except.ok () ∧
      ∃ a', findAsset (recalculateAssetRiskScore st asset_id now).2.assets asset_id = some a' ∧
        a'.risk_score = computeRiskNonFp a.findings ∧
        a'.status = statusForScore (computeRiskNonFp a.findings)) ∧
    (∀ badges : List Badge, (∀ b ∈ badges, b.is_fp = false) →
      scanRiskAll badges = computeRiskNonFp badges) ∧
    (∀ (url method : String) (code : Int) (rh rb : String) (badges : List Badge)
        (ds : List String),
      (scanUrlSuccess url method code rh rb badges ds).risk_score = scanRiskAll badges ∧
      (scanUrlSuccess url method code rh rb badges ds).status =
        statusForScore (scanRiskAll badges)) ∧
    (∀ (st : DbState) (id : Int) (r : ScanResult) (now : Nat) (a : Asset),
      findAsset st.assets id = some a →
      ∃ a', findAsset (updateScanResult st id r.status r.status_code r.risk_score r.findings
          r.response_headers r.response_body r.request_headers r.request_body now).assets id =
            some a' ∧
        a'.risk_score = r.risk_score ∧ a'.status = r.status) := by
  refine ⟨?_, ?_, ?_, ?_⟩
  · intro st asset_id a now ha
    rw [recalc_found st asset_id now a ha]
    refine ⟨rfl, ?_⟩
    have hmap := findAsset_updateRow st.assets asset_id
      (fun r => { r with risk_score := computeRiskNonFp a.findings
                         status := statusForScore (computeRiskNonFp a.findings)
                         updated_at := now }) (fun r => rfl)
    rw [ha] at hmap
    exact ⟨_, hmap, rfl, rfl⟩
  · exact fun badges h => scanRiskAll_eq_nonfp badges h
  · intro url method code rh rb badges ds
    exact ⟨rfl, rfl⟩
  · intro st id r now a ha
    rw [updateScanResult_assets]
    have hmap := findAsset_updateRow st.assets id
      (fun x => { x with status := r.status, status_code := r.status_code,
                         risk_score := r.risk_score, findings := r.findings,
                         response_headers := r.response_headers,
                         response_body := r.response_body,
                         request_headers := r.request_headers,
                         request_body := r.request_body, updated_at := now }) (fun x => rfl)
    rw [ha] at hmap
    exact ⟨_, hmap, rfl, rfl⟩

/-- High-severity badge used by the concrete risk witnesses. -/
def badgeHigh : Badge := { emoji := "", short := "High finding", severity := Severity.High, description := "" }

/-- Medium-severity badge used by the concrete risk witnesses. -/
def badgeMedium : Badge := { emoji := "", short := "Medium finding", severity := Severity.Medium, description := "" }

/-- Asset holding one High and one Medium finding. -/
def assetC5W : Asset :=
  { newAssetRow 1 "http://a.example.com" "GET" "User" false false 0 0 with
    findings := [badgeHigh, badgeMedium] }

/-- One-asset database for the C5 witness. -/
def dbC5W : DbState := { assets := [assetC5W], history := [], next_id := 2, next_hist_id := 1 }

/-- Witness for the amended C5 theorem: one High plus one Medium weighs 75
and recalculation persists score 75 with status Warning. -/
theorem c5_risk_weights_and_thresholds_witness :
    scanRiskAll [badgeHigh, badgeMedium] = computeRiskNonFp [badgeHigh, badgeMedium] ∧
    computeRiskNonFp [badgeHigh, badgeMedium] = 75 ∧
    statusForScore 75 = "Warning" ∧
    ∃ a', findAsset (recalculateAssetRiskScore dbC5W 1 5).2.assets 1 = some a' ∧
      a'.risk_score = computeRiskNonFp assetC5W.findings ∧
      a'.status = statusForScore (computeRiskNonFp assetC5W.findings) := by
  have h := c5_risk_weights_and_thresholds
  exact ⟨h.2.1 [badgeHigh, badgeMedium] (by decide), by decide, by decide,
    (h.1 dbC5W 1 assetC5W 5 rfl).2⟩

/-- Medium-severity badge persisted on the concrete C6 asset. -/
def fpBadge : Badge := { emoji := "x", short := "PII Leak", severity := Severity.Medium, description := "d" }

/-- Asset carrying one finding, with updated_at 0, for the C6 scenarios. -/
def assetC6 : Asset :=
  { newAssetRow 1 "http://a.example.com" "GET" "User" false false 0 0 with
    findings := [fpBadge] }

/-- One-asset database for the C6 scenarios. -/
def dbC6 : DbState := { assets := [assetC6], history := [], next_id := 2, next_hist_id := 1 }

/-- C6 counterexample: the false-positive toggle also rewrites updated_at
(both UPDATE statements set it to CURRENT_TIMESTAMP), so an asset field
outside findings, risk_score and status does change, against the claim that
every other field is left unchanged. -/
theorem c6_toggle_mutates_updated_at :
    assetC6.updated_at = 0 ∧
    ∃ a', findAsset (toggleFindingFp dbC6 1 "PII Leak" none true (some "test data") 7).2.assets 1 =
        some a' ∧
      a'.updated_at = 7 ∧ ¬ a'.updated_at = assetC6.updated_at := by
  exact ⟨rfl, _, rfl, rfl, by decide⟩

/-- C6 amended: when no persisted finding of the asset matches the
(short name, evidence) pair the toggle returns the explicit Finding not found
error with the state untouched; when a match exists it flips is_fp and
fp_reason on every matching finding, and the follow-up recalculation persists
the re-derived risk_score and status, while every other asset field except
updated_at keeps its value and the history table is untouched. -/
theorem c6_fp_toggle (st : DbState) (asset_id : Int) (short_name : String)
    (evidence : Option String) (is_fp : Bool) (reason : Option String) (now : Nat) (a : Asset)
    (ha : findAsset st.assets asset_id = some a) :
    (hasMatch a.findings short_name evidence = false →
      toggleFindingFp st asset_id short_name evidence is_fp reason now =
        (Except.error "Finding not found", st)) ∧
    (hasMatch a.findings short_name evidence = true →
      (toggleFindingFp st asset_id short_name evidence is_fp reason now).1 = Except.ok () ∧
      (toggleFindingFp st asset_id short_name evidence is_fp reason now).2.history = st.history ∧
      ∃ a', findAsset (toggleFindingFp st asset_id short_name evidence is_fp reason now).2.assets
          asset_id = some a' ∧
        a'.findings = applyFp a.findings short_name evidence is_fp reason ∧
        a'.risk_score = computeRiskNonFp (applyFp a.findings short_name evidence is_fp reason) ∧
        a'.status =
          statusForScore (computeRiskNonFp (applyFp a.findings short_name evidence is_fp reason)) ∧
        a'.updated_at = now ∧
        a'.id = a.id ∧ a'.url = a.url ∧ a'.method = a.method ∧
        a'.status_code = a.status_code ∧ a'.folder_id = a.folder_id ∧
        a'.response_headers = a.response_headers ∧ a'.response_body = a.response_body ∧
        a'.request_headers = a.request_headers ∧ a'.request_body = a.request_body ∧
        a'.created_at = a.created_at ∧ a'.notes = a.notes ∧
        a'.triage_status = a.triage_status ∧ a'.is_documented = a.is_documented ∧
        a'.source = a.source ∧ a'.recursive = a.recursive ∧
        a'.is_workbench = a.is_workbench ∧ a'.depth = a.depth) := by
  have hupd_err : hasMatch a.findings short_name evidence = false →
      updateFindingFp st asset_id short_name evidence is_fp reason now =
        (Except.error "Finding not found", st) := by
    intro hm
    unfold updateFindingFp
    rw [ha]
    simp [hm]
  have hupd_ok : hasMatch a.findings short_name evidence = true →
      updateFindingFp st asset_id short_name evidence is_fp reason now =
        (Except.ok (),
          { st with assets := updateRow st.assets asset_id (fun r =>
              { r with findings := applyFp a.findings short_name evidence is_fp reason
                       updated_at := now }) }) := by
    intro hm
    unfold updateFindingFp
    rw [ha]
    simp [hm]
  constructor
  · intro hm
    unfold toggleFindingFp
    rw [hupd_err hm]
  · intro hm
    have hmap := findAsset_updateRow st.assets asset_id
      (fun r => { r with findings := applyFp a.findings short_name evidence is_fp reason
                         updated_at := now }) (fun r => rfl)
    rw [ha] at hmap
    have htog : toggleFindingFp st asset_id short_name evidence is_fp reason now =
        recalculateAssetRiskScore
          { st with assets := updateRow st.assets asset_id (fun r =>
              { r with findings := applyFp a.findings short_name evidence is_fp reason
                       updated_at := now }) } asset_id now := by
      unfold toggleFindingFp
      rw [hupd_ok hm]
    have hrec := recalc_found
      { st with assets := updateRow st.assets asset_id (fun r =>
          { r with findings := applyFp a.findings short_name evidence is_fp reason
                   updated_at := now }) } asset_id now _ hmap
    rw [htog, hrec]
    refine ⟨rfl, rfl, ?_⟩
    have hmap2 := findAsset_updateRow
      (updateRow st.assets asset_id (fun r =>
        { r with findings := applyFp a.findings short_name evidence is_fp reason
                 updated_at := now })) asset_id
      (fun r => { r with
        risk_score := computeRiskNonFp (applyFp a.findings short_name evidence is_fp reason)
        status := statusForScore (computeRiskNonFp (applyFp a.findings short_name evidence is_fp reason))
        updated_at := now }) (fun r => rfl)
    rw [hmap] at hmap2
    refine ⟨_, hmap2, ?_⟩
    repeat' apply And.intro
    all_goals rfl

/-- Witness for the amended C6 theorem: on the concrete one-finding asset the
matched toggle succeeds and a toggle naming an absent finding returns the
explicit error with the state unchanged. -/
theorem c6_fp_toggle_witness :
    (toggleFindingFp dbC6 1 "PII Leak" none true (some "test data") 7).1 = Except.ok () ∧
    toggleFindingFp dbC6 1 "No Such Finding" none true none 7 =
      (Except.error "Finding not found", dbC6) := by
  have h1 := c6_fp_toggle dbC6 1 "PII Leak" none true (some "test data") 7 assetC6 rfl
  have h2 := c6_fp_toggle dbC6 1 "No Such Finding" none true none 7 assetC6 rfl
  exact ⟨(h1.2 (by decide)).1, h2.1 (by decide)⟩

/-- C7: update_scan_result archives exactly one history entry holding the
pre-overwrite values of status_code, risk_score, findings, response_headers
and response_body precisely when the prior state was non-trivial (prior
status_code not 0 or non-empty prior body), leaves the history untouched for
a freshly Pending prior state, and overwrites the live scan fields with the
new values in both cases. -/
theorem c7_prior_scan_archived (st : DbState) (id : Int) (status : String) (code risk : Int)
    (fnd : List Badge) (rh rb qh qb : String) (now : Nat) (old : Asset)
    (h : findAsset st.assets id = some old) :
    ((¬ old.status_code = 0 ∨ ¬ old.response_body = "") →
      (updateScanResult st id status code risk fnd rh rb qh qb now).history =
        st.history ++
          [{ id := st.next_hist_id, asset_id := id, timestamp := now,
             status_code := old.status_code, risk_score := old.risk_score,
             findings := old.findings, response_headers := old.response_headers,
             response_body := old.response_body }]) ∧
    ((old.status_code = 0 ∧ old.response_body = "") →
      (updateScanResult st id status code risk fnd rh rb qh qb now).history = st.history) ∧
    (∃ a', findAsset (updateScanResult st id status code risk fnd rh rb qh qb now).assets id =
        some a' ∧
      a'.status = status ∧ a'.status_code = code ∧ a'.risk_score = risk ∧
      a'.findings = fnd ∧ a'.response_headers = rh ∧ a'.response_body = rb ∧
      a'.request_headers = qh ∧ a'.request_body = qb ∧ a'.updated_at = now) := by
  refine ⟨?_, ?_, ?_⟩
  · intro hnt
    have hb : (!(old.status_code == 0) || !(old.response_body == "")) = true := by
      rcases hnt with h1 | h1 <;> simp [h1]
    unfold updateScanResult
    rw [h]
    simp only [hb, if_pos]
  · rintro ⟨h1, h2⟩
    have hb : (!(old.status_code == 0) || !(old.response_body == "")) = false := by
      simp [h1, h2]
    unfold updateScanResult
    rw [h]
    simp only [hb]
    rfl
  · rw [updateScanResult_assets]
    have hmap := findAsset_updateRow st.assets id
      (fun a => { a with status := status, status_code := code, risk_score := risk,
                         findings := fnd, response_headers := rh, response_body := rb,
                         request_headers := qh, request_body := qb, updated_at := now })
      (fun a => rfl)
    rw [h] at hmap
    refine ⟨_, hmap, ?_⟩
    repeat' apply And.intro
    all_goals rfl

/-- Already-scanned asset with a non-empty prior body for the C7 witness. -/
def scannedAssetC7 : Asset :=
  { newAssetRow 1 "http://a.example.com" "GET" "User" false false 0 0 with
    status := "Safe"
    status_code := 200
    response_body := "hello" }

/-- One-asset database holding a completed scan for the C7 witness. -/
def dbC7 : DbState := { assets := [scannedAssetC7], history := [], next_id := 2, next_hist_id := 1 }

/-- Witness for the C7 theorem: rescanning the concrete asset with a
non-empty prior body appends exactly its pre-overwrite snapshot, and the
freshly Pending C5 asset produces no history row on its first scan. -/
theorem c7_prior_scan_archived_witness :
    (updateScanResult dbC7 1 "Safe" 200 0 [] "h2" "body2" "q2" "" 50).history =
      dbC7.history ++
        [{ id := dbC7.next_hist_id, asset_id := 1, timestamp := 50,
           status_code := scannedAssetC7.status_code, risk_score := scannedAssetC7.risk_score,
           findings := scannedAssetC7.findings,
           response_headers := scannedAssetC7.response_headers,
           response_body := scannedAssetC7.response_body }] ∧
    (updateScanResult dbC5 1 "Safe" 200 0 [] "h" "b" "q" "" 50).history = dbC5.history := by
  constructor
  · exact (c7_prior_scan_archived dbC7 1 "Safe" 200 0 [] "h2" "body2" "q2" "" 50 scannedAssetC7
      rfl).1 (Or.inr (by decide))
  · exact (c7_prior_scan_archived dbC5 1 "Safe" 200 0 [] "h" "b" "q" "" 50 pendingAssetC5
      rfl).2.1 ⟨rfl, rfl⟩

/-- C9: along any serialized trace of wait() calls of the rate limiter of
core/rate_limiter.rs (the mutex is held from clock read to return, so call
i+1 acquires no earlier than return i, and the stored last-call time of the
next call is the previous return time) every two consecutive returns are at
least min_interval apart. -/
theorem c9_rate_limiter_spacing (min_interval : Nat) (last acq ret : Nat → Nat)
    (hstep : ∀ i, WaitStep min_interval (last i) (acq i) (ret i))
    (hlast : ∀ i, last (i + 1) = ret i)
    (hser : ∀ i, ret i ≤ acq (i + 1)) :
    ∀ i, ret i + min_interval ≤ ret (i + 1) := by
  intro i
  have h := hstep (i + 1)
  have hl := hlast i
  have hs := hser i
  rw [hl] at h
  rcases h with ⟨h1, h2⟩ | ⟨h1, h2⟩ <;> omega

/-- Witness for the C9 theorem: the evenly spaced 50 ms trace satisfies every
hypothesis and consecutive returns are 50 apart. -/
theorem c9_rate_limiter_spacing_witness : (50 : Nat) * (0 + 1) + 50 ≤ 50 * (1 + 1) := by
  have hstep : ∀ i : Nat, WaitStep 50 (50 * i) (50 * i) (50 * (i + 1)) := by
    intro i
    exact Or.inl ⟨by omega, by omega⟩
  have h := c9_rate_limiter_spacing 50 (fun i => 50 * i) (fun i => 50 * i)
    (fun i => 50 * (i + 1)) (fun i => hstep i) (fun i => rfl) (fun i => Nat.le_refl _)
  exact h 0
